import Mathlib

/-!
Verification of the `lightweight-gan` training orchestration code
(`lightweight_gan/utils.py`, `diff_augment.py`, `dataset.py`, `cli.py`)
against its natural-language specification.

Python floats are modelled as an inductive extended-value type over `ℚ`
(NaN and the two infinities as explicit constructors); tensors as shape,
dtype, flat data and a contiguity flag; exceptions as `Except`.
-/

namespace LightweightGan

/-- `lightweight_gan.exceptions.NanException` (module not under `src/`;
its only role visible from the sources is to be raised and caught, so it is
a structureless exception type). -/
inductive NanException where
  | mk
deriving DecidableEq, Repr

/-- A Python float value: finite rational, positive/negative infinity or NaN. -/
inductive FloatVal where
  | finite (q : ℚ)
  | inf
  | neginf
  | nan
deriving DecidableEq, Repr

/-- `torch.isnan` on a scalar tensor. -/
def isnan : FloatVal → Bool
  | FloatVal.nan => true
  | _ => false

/-- `torch.isinf` on a scalar tensor (true on either infinity). -/
def isinf : FloatVal → Bool
  | FloatVal.inf => true
  | FloatVal.neginf => true
  | _ => false

/-- `torch.isfinite` on a scalar tensor. -/
def isfinite : FloatVal → Bool
  | FloatVal.finite _ => true
  | _ => false

/-- `utils.raise_if_nan`:
```
def raise_if_nan(t):
    if torch.isnan(t):
        raise NanException
```
-/
def raise_if_nan (t : FloatVal) : Except NanException Unit :=
  if isnan t then Except.error NanException.mk else Except.ok ()

/-- Result of `utils.safe_div`: a finite rational or a signed infinity. -/
inductive ExtVal where
  | finite (q : ℚ)
  | inf
  | neginf
deriving DecidableEq, Repr

/-- Python's `/` operator: raises `ZeroDivisionError` (modelled as `Except.error ()`)
when the denominator is zero, otherwise true division. -/
def pydiv (n d : ℚ) : Except Unit ℚ :=
  if d = 0 then Except.error () else Except.ok (n / d)

/-- `utils.safe_div`:
```
def safe_div(n, d):
    try:
        res = n / d
    except ZeroDivisionError:
        prefix = "" if int(n >= 0) else "-"
        res = float(f"{prefix}inf")
    return res
```
The sign string selects `float("inf")` when `n >= 0`, else `float("-inf")`. -/
def safe_div (n d : ℚ) : ExtVal :=
  match pydiv n d with
  | Except.ok res => ExtVal.finite res
  | Except.error _ => if 0 ≤ n then ExtVal.inf else ExtVal.neginf

/-- Tensor dtypes that matter at this interface. -/
inductive DType where
  | float32
  | float16
  | uint8
deriving DecidableEq, Repr

/-- A torch tensor: shape, dtype, flat data, and whether its memory is contiguous. -/
structure Tensor where
  shape : List Nat
  dtype : DType
  data : List ℚ
  isContig : Bool
deriving DecidableEq, Repr

/-- `torch.Tensor.contiguous`: returns `self` when already contiguous,
otherwise a contiguous copy holding the same values. -/
def Tensor.contiguous (t : Tensor) : Tensor :=
  if t.isContig then t else { t with isContig := true }

/-- Apply a list of augmentation functions left to right
(the inner `for f in AUGMENT_FNS[p]: x = f(x)` loop of `DiffAugment`). -/
def applyFns (fns : List (Tensor → Tensor)) (x : Tensor) : Tensor :=
  fns.foldl (fun a f => f a) x

/-- `diff_augment.DiffAugment`:
```
def DiffAugment(x, types=[]):
    for p in types:
        for f in AUGMENT_FNS[p]:
            x = f(x)
    return x.contiguous()
```
`AUGMENT_FNS` lives in `lightweight_gan.augmentations`, which is not under
`src/`; it is passed here as the table `fns` mapping each transform name to
its list of functions. -/
def DiffAugment (fns : String → List (Tensor → Tensor)) (x : Tensor)
    (types : List String) : Tensor :=
  (types.foldl (fun a p => applyFns (fns p) a) x).contiguous

/-- State threaded through `det_randn`: the `functools.lru_cache(maxsize=10)`
store (most recently used first) and a counter of `torch.randn` invocations,
modelling the advance of torch's global RNG. -/
structure DetRandnState where
  entries : List (List Nat × Tensor)
  rngCalls : Nat
deriving DecidableEq, Repr

/-- `utils.det_randn`, an `lru_cache(maxsize=10)`-memoized `torch.randn(*args)`:
```
@lru_cache(maxsize=10)
def det_randn(*args):
    return torch.randn(*args)
```
`randn k shape` is the tensor torch's global RNG would produce on its k-th
draw for `shape`. On a cache hit the memoized tensor is returned and its
entry moved to the front (recency update, no RNG advance); on a miss
`torch.randn` runs, the result is inserted in front, and entries beyond the
10 most recent are evicted. -/
def det_randn (randn : Nat → List Nat → Tensor) (args : List Nat)
    (st : DetRandnState) : Tensor × DetRandnState :=
  match st.entries.find? (fun e => e.1 == args) with
  | some e =>
      (e.2, { st with
              entries := (args, e.2) :: st.entries.eraseP (fun x => x.1 == args) })
  | none =>
      let v := randn st.rngCalls args
      (v, { entries := ((args, v) :: st.entries).take 10
            rngCalls := st.rngCalls + 1 })

/-! ## dataset.py -/

/-- PIL image modes relevant to `dataset.py`. -/
inductive PILMode where
  | L
  | LA
  | RGB
  | RGBA
deriving DecidableEq, Repr

/-- Number of channels of each PIL mode. -/
def PILMode.channels : PILMode → Nat
  | PILMode.L => 1
  | PILMode.LA => 2
  | PILMode.RGB => 3
  | PILMode.RGBA => 4

/-- A decoded PIL image at the granularity the dataset pipeline observes:
its mode and spatial size. -/
structure PILImage where
  mode : PILMode
  width : Nat
  height : Nat
deriving DecidableEq, Repr

/-- `dataset.convert_image_to`:
```
def convert_image_to(img_type, image):
    if image.mode != img_type:
        return image.convert(img_type)
    return image
```
`PIL.Image.convert` changes the mode, keeping the spatial size. -/
def convert_image_to (img_type : PILMode) (image : PILImage) : PILImage :=
  if image.mode ≠ img_type then { image with mode := img_type } else image

/-- torchvision `Resize(size)` / `functional.resize(image, size)` with an
integer size: scales so the shorter edge becomes `size`, keeping the aspect
ratio (integer approximation; the longer edge's rounding is irrelevant
downstream because a fixed-size crop follows). Mode is unchanged. -/
def resizeShorterEdge (size : Nat) (image : PILImage) : PILImage :=
  if image.height ≤ image.width then
    { image with height := size, width := size * image.width / image.height }
  else
    { image with width := size, height := size * image.height / image.width }

/-- `dataset.resize_to_minimum_size`:
```
def resize_to_minimum_size(min_size, image):
    if max(*image.size) < min_size:
        return torchvision.transforms.functional.resize(image, min_size)
    return image
```
-/
def resize_to_minimum_size (min_size : Nat) (image : PILImage) : PILImage :=
  if max image.width image.height < min_size then resizeShorterEdge min_size image
  else image

/-- The two crop transforms `random_apply` chooses between in
`ImageDataset.__init__`. -/
inductive CropKind where
  | center
  | randomResized
deriving DecidableEq, Repr

/-- torchvision `CenterCrop(size)` and `RandomResizedCrop(size, ...)` both
emit an exactly `size × size` output (`CenterCrop` pads when the input is
smaller; `RandomResizedCrop` resizes its sampled crop window to `size`).
The mode (channel count) is unchanged. -/
def applyCrop (k : CropKind) (size : Nat) (image : PILImage) : PILImage :=
  match k with
  | CropKind.center => { image with width := size, height := size }
  | CropKind.randomResized => { image with width := size, height := size }

/-- A CHW image tensor as produced by `transforms.ToTensor`, at the
granularity the claims observe: channel count and spatial size. -/
structure ImgTensor where
  channels : Nat
  height : Nat
  width : Nat
deriving DecidableEq, Repr

/-- `transforms.ToTensor`: a `mode`-image of size `width × height` becomes a
`channels(mode) × height × width` tensor. -/
def to_tensor (image : PILImage) : ImgTensor :=
  { channels := image.mode.channels, height := image.height, width := image.width }

/-- `dataset.expand_greyscale`:
```
def expand_greyscale(tensor, transparent):
    channels = tensor.shape[0]
    num_target_channels = 4 if transparent else 3
    if channels == num_target_channels:
        return tensor
    alpha = None
    if channels == 1:
        color = tensor.expand(3, -1, -1)
    elif channels == 2:
        color = tensor[:1].expand(3, -1, -1)
        alpha = tensor[1:]
    else:
        raise Exception(...)
    if not exists(alpha) and transparent:
        alpha = torch.ones(1, *tensor.shape[1:], device=tensor.device)
    return color if not transparent else torch.cat((color, alpha))
```
-/
def expand_greyscale (tensor : ImgTensor) (transparent : Bool) :
    Except String ImgTensor :=
  let channels := tensor.channels
  let num_target_channels := if transparent then 4 else 3
  if channels = num_target_channels then
    Except.ok tensor
  else if channels = 1 ∨ channels = 2 then
    let color : ImgTensor := { tensor with channels := 3 }
    let alpha : Option ImgTensor :=
      if channels = 2 then some { tensor with channels := 1 } else none
    let alpha : Option ImgTensor :=
      if alpha.isNone && transparent then some { tensor with channels := 1 }
      else alpha
    Except.ok
      (if transparent then
        match alpha with
        | some a => { color with channels := color.channels + a.channels }
        | none => color
      else color)
  else
    Except.error "image with invalid number of channels given"

/-- `dataset.identity`: `return tensor` (lifted into the pipeline's
fallible-function type). -/
def identityExpand (tensor : ImgTensor) : Except String ImgTensor :=
  Except.ok tensor

/-- The `expand_fn` selected in `ImageDataset.__init__`: either a partial
application of `expand_greyscale` or `identity`. -/
inductive ExpandFn where
  | expandGrey (transparent : Bool)
  | identity
deriving DecidableEq, Repr

/-- Apply the selected `expand_fn`. -/
def ExpandFn.apply : ExpandFn → ImgTensor → Except String ImgTensor
  | ExpandFn.expandGrey transparent, t => expand_greyscale t transparent
  | ExpandFn.identity, t => identityExpand t

/-- `dataset.random_apply`:
```
def random_apply(prob, fn1, fn2):
    """randomly apply one of two functions"""
    return fn1 if random() < prob else fn2
```
The single uniform draw `random()` is passed explicitly as `u ∈ [0, 1)`. -/
def random_apply {α : Type} (prob u : ℚ) (fn1 fn2 : α) : α :=
  if u < prob then fn1 else fn2

/-- A file in the training folder tree, at the granularity the glob
observes: its stem and extension (the part after the last dot). -/
structure FileEntry where
  stem : String
  ext : String
deriving DecidableEq, Repr

/-- `dataset.EXTS = ["jpg", "jpeg", "png"]`. -/
def EXTS : List String := ["jpg", "jpeg", "png"]

/-- `[p for ext in EXTS for p in Path(folder).glob(f"**/*.{ext}")]`:
`folder` is the recursive listing of the folder tree; each per-extension
glob keeps the files with that extension, and the per-extension lists are
concatenated in `EXTS` order. -/
def globPaths (folder : List FileEntry) : List FileEntry :=
  EXTS.flatMap (fun ext => folder.filter (fun p => p.ext == ext))

/-- `dataset.ImageDataset` after `__init__`: the stored path list, the
configuration, the derived channel count / pillow mode / expand function,
and the crop transform chosen once by `random_apply` and frozen inside
`self.transform`. -/
structure ImageDataset where
  paths : List FileEntry
  image_size : Nat
  transparent : Bool
  greyscale : Bool
  num_channels : Nat
  pillow_mode : PILMode
  expand_fn : ExpandFn
  cropChoice : CropKind
deriving DecidableEq, Repr

/-- `ImageDataset.__init__`: globs the paths, asserts at least one image was
found, derives `(num_channels, pillow_mode, expand_fn)` from the
`transparent` / `greyscale` flags, and builds `self.transform` — in
particular calling `random_apply(aug_prob, CenterCrop, RandomResizedCrop)`
exactly once, with `u` the single `random()` draw it consumes. -/
def ImageDataset.init (folder : List FileEntry) (image_size : Nat)
    (transparent greyscale : Bool) (aug_prob u : ℚ) :
    Except String ImageDataset :=
  if (globPaths folder).length > 0 then
    Except.ok
      { paths := globPaths folder
        image_size := image_size
        transparent := transparent
        greyscale := greyscale
        num_channels := if transparent then 4 else if greyscale then 1 else 3
        pillow_mode :=
          if transparent then PILMode.RGBA
          else if greyscale then PILMode.L
          else PILMode.RGB
        expand_fn :=
          if transparent then ExpandFn.expandGrey true
          else if greyscale then ExpandFn.identity
          else ExpandFn.expandGrey false
        cropChoice := random_apply aug_prob u CropKind.center CropKind.randomResized }
  else
    Except.error "No images were found for training"

/-- `ImageDataset.__len__`: `len(self.paths)`. -/
def ImageDataset.len (d : ImageDataset) : Nat :=
  d.paths.length

/-- `ImageDataset.__getitem__` applied to the decoded source image `img` of
the indexed path: runs the stored `self.transform` pipeline
(`convert_image_to(pillow_mode)`, `resize_to_minimum_size(image_size)`,
`Resize(image_size)`, the frozen crop choice, `ToTensor`, `expand_fn`). -/
def ImageDataset.getitem (d : ImageDataset) (img : PILImage) :
    Except String ImgTensor :=
  let img1 := convert_image_to d.pillow_mode img
  let img2 := resize_to_minimum_size d.image_size img1
  let img3 := resizeShorterEdge d.image_size img2
  let img4 := applyCrop d.cropChoice d.image_size img3
  d.expand_fn.apply (to_tensor img4)

/-! ## cli.py — `run_training` -/

/-- Observable write side effects of `cli.run_training`: the `is_main`-guarded
`model.print_log()` inside the loop and the final
`model.save(model.checkpoint_num)` after the loop. -/
inductive Effect where
  | printLog
  | save
deriving DecidableEq, Repr

/-- Modelled from the spec: `Trainer.train` (module `lightweight_gan.trainer`,
not under `src/`) — on full success it increments the step counter exactly
once; on a NaN failure it raises `NanException` and the step counter does not
advance. `nanAt k` says whether the k-th invocation of `model.train` in this
run hits a NaN; `idx` is that invocation counter, `steps` the current step
counter. Per the spec, the intra-step checkpoint/evaluation writes inside
`Trainer.train` occur only on the coordinating worker, so they are not part
of the cli-level effect trace. -/
def trainCall (nanAt : Nat → Bool) (steps idx : Nat) : Except NanException Nat :=
  if nanAt idx then Except.error NanException.mk else Except.ok (steps + 1)

/-- `retry.api.retry_call(f, tries=n, exceptions=NanException)`: calls `f` up
to `n` times, catching `NanException` between tries and re-raising the
failure of the last allowed try. Returns the result paired with the
invocation counter after the calls made. (`cli.run_training` only ever
passes `tries=3`; the `tries = 0` case, in which the retry library would
make no call at all, is modelled as an immediate failure and is never
reached from `run_training`.) -/
def retry_call (f : Nat → Except NanException α) :
    Nat → Nat → Except NanException α × Nat
  | 0, idx => (Except.error NanException.mk, idx)
  | Nat.succ t, idx =>
    match f idx with
    | Except.ok a => (Except.ok a, idx + 1)
    | Except.error e =>
      if t = 0 then (Except.error e, idx + 1)
      else retry_call f t (idx + 1)

/-- The `while model.steps < num_train_steps` loop of `cli.run_training`:
```
while model.steps < num_train_steps:
    retry_call(model.train, tries=3, exceptions=NanException)
    progress_bar.n = model.steps
    progress_bar.refresh()
    if is_main and model.steps % 50 == 0:
        model.print_log()
```
Each successful `retry_call` advances the step counter by one, so the loop
body runs at most `num_train_steps - steps` more times; `fuel` is any bound
on that (callers pass `num_train_steps`). An uncaught `NanException`
propagates out of the loop. Returns the effect trace, the final step
counter, and the final invocation counter. -/
def runLoop (nanAt : Nat → Bool) (is_main : Bool) (num_train_steps : Nat) :
    Nat → Nat → Nat → Except NanException (List Effect × Nat × Nat)
  | 0, steps, idx => Except.ok ([], steps, idx)
  | Nat.succ fuel, steps, idx =>
    if steps < num_train_steps then
      match retry_call (trainCall nanAt steps) 3 idx with
      | (Except.error e, _) => Except.error e
      | (Except.ok steps', idx') =>
        match runLoop nanAt is_main num_train_steps fuel steps' idx' with
        | Except.error e => Except.error e
        | Except.ok (effs, s, i) =>
          Except.ok
            ((if is_main ∧ steps' % 50 = 0 then [Effect.printLog] else []) ++ effs,
             s, i)
    else Except.ok ([], steps, idx)

/-- `cli.run_training`, restricted to what the sources determine: `is_main`
is `rank == 0`; the training loop runs with
`retry_call(model.train, tries=3, exceptions=NanException)` until
`model.steps` reaches `num_train_steps`; after the loop,
`model.save(model.checkpoint_num)` is executed unconditionally. `steps0` is
the step counter after `model.load`/`model.clear`. Returns the trace of
write effects and the final step counter, or the uncaught `NanException`. -/
def run_training (rank world_size : Nat) (nanAt : Nat → Bool)
    (num_train_steps steps0 : Nat) : Except NanException (List Effect × Nat) :=
  let is_main : Bool := rank == 0
  match runLoop nanAt is_main num_train_steps num_train_steps steps0 0 with
  | Except.error e => Except.error e
  | Except.ok (effs, steps, _) => Except.ok (effs ++ [Effect.save], steps)

/-! ## Theorems -/

/-- C8: `safe_div` is total: for every numerator `n` and denominator `d` it
returns `n / d` when `d ≠ 0` (the `ZeroDivisionError` branch is not taken),
and when `d = 0` it returns `+inf` if `n ≥ 0` and `-inf` if `n < 0`; in
particular `safe_div 0 0 = +inf`. Totality is witnessed by the return type:
every case yields a value, never an exception. -/
theorem safe_div_total (n d : ℚ) :
    safe_div n d =
      (if d = 0 then (if 0 ≤ n then ExtVal.inf else ExtVal.neginf)
       else ExtVal.finite (n / d))
    ∧ safe_div 0 0 = ExtVal.inf := by
  constructor
  · unfold safe_div pydiv
    by_cases hd : d = 0 <;> simp [hd]
  · rfl

/-- C3 counterexample: at `t = +Inf` the claim fails. `raise_if_nan` returns
normally (`Except.ok ()`) although `t` is Inf (and not finite), whereas the
claim says the NaN/Inf detection raises whenever `t` is NaN *or Inf*. -/
theorem raise_if_nan_inf_returns_normally :
    raise_if_nan FloatVal.inf = Except.ok ()
    ∧ isinf FloatVal.inf = true
    ∧ isfinite FloatVal.inf = false :=
  ⟨rfl, rfl, rfl⟩

/-- C3 (amended): `raise_if_nan` raises `NanException` if and only if `t` is
NaN; for every non-NaN `t` — finite values and also the two infinities — it
returns normally and raises nothing. -/
theorem raise_if_nan_iff_isnan (t : FloatVal) :
    (raise_if_nan t = Except.error NanException.mk ↔ isnan t = true)
    ∧ (raise_if_nan t = Except.ok () ↔ isnan t = false) := by
  cases t <;> simp [raise_if_nan, isnan]

/-- `Tensor.contiguous` never changes values, shape or dtype, and its result
is contiguous. -/
theorem contiguous_fields (t : Tensor) :
    t.contiguous.data = t.data ∧ t.contiguous.shape = t.shape
    ∧ t.contiguous.dtype = t.dtype ∧ t.contiguous.isContig = true := by
  unfold Tensor.contiguous
  by_cases h : t.isContig <;> simp [h]

/-- C2: the augmentation pipeline with an empty spec is a no-op:
`DiffAugment(x, [])` has bit-identical data, the same shape and the same
dtype as `x`, and is contiguous; when `x` is already contiguous the result
is `x` itself. -/
theorem DiffAugment_empty_noop (fns : String → List (Tensor → Tensor))
    (x : Tensor) :
    (DiffAugment fns x []).data = x.data
    ∧ (DiffAugment fns x []).shape = x.shape
    ∧ (DiffAugment fns x []).dtype = x.dtype
    ∧ (DiffAugment fns x []).isContig = true
    ∧ (x.isContig = true → DiffAugment fns x [] = x) := by
  have h := contiguous_fields x
  refine ⟨h.1, h.2.1, h.2.2.1, h.2.2.2, ?_⟩
  intro hc
  simp [DiffAugment, Tensor.contiguous, hc]

/-- C2 witness: the no-op theorem evaluated at a concrete contiguous
2×2 float tensor. -/
theorem DiffAugment_empty_noop_witness :
    DiffAugment (fun _ => []) ⟨[2, 2], DType.float32, [1, 2, 3, 4], true⟩ []
      = ⟨[2, 2], DType.float32, [1, 2, 3, 4], true⟩ :=
  (DiffAugment_empty_noop (fun _ => [])
    ⟨[2, 2], DType.float32, [1, 2, 3, 4], true⟩).2.2.2.2 rfl

/-- `applyFns` preserves shape and dtype when each listed function does. -/
theorem applyFns_preserves (fns : List (Tensor → Tensor))
    (hp : ∀ f ∈ fns, ∀ t : Tensor, (f t).shape = t.shape ∧ (f t).dtype = t.dtype)
    (x : Tensor) :
    (applyFns fns x).shape = x.shape ∧ (applyFns fns x).dtype = x.dtype := by
  induction fns generalizing x with
  | nil => exact ⟨rfl, rfl⟩
  | cons f fs ih =>
    have hstep := hp f (by simp) x
    have htail := ih (fun g hg t => hp g (by simp [hg]) t) (f x)
    exact ⟨htail.1.trans hstep.1, htail.2.trans hstep.2⟩

/-- The fold over the spec preserves shape and dtype when every table entry
for a listed transform does. -/
theorem foldSpec_preserves (fns : String → List (Tensor → Tensor))
    (types : List String)
    (hp : ∀ p ∈ types, ∀ f ∈ fns p, ∀ t : Tensor,
      (f t).shape = t.shape ∧ (f t).dtype = t.dtype)
    (x : Tensor) :
    (types.foldl (fun a p => applyFns (fns p) a) x).shape = x.shape
    ∧ (types.foldl (fun a p => applyFns (fns p) a) x).dtype = x.dtype := by
  induction types generalizing x with
  | nil => exact ⟨rfl, rfl⟩
  | cons p ps ih =>
    have hstep := applyFns_preserves (fns p) (hp p (by simp)) x
    have htail := ih (fun q hq f hf t => hp q (by simp [hq]) f hf t)
      (applyFns (fns p) x)
    exact ⟨htail.1.trans hstep.1, htail.2.trans hstep.2⟩

/-- C7: `DiffAugment` applies the transforms of the spec in the order given,
composing left-to-right — consuming the first named transform and feeding
its output to the rest of the spec — and, since each table entry of a listed
transform preserves shape and dtype (the spec's contract for the
`AUGMENT_FNS` collaborator), the result preserves the input's shape and
dtype. -/
theorem DiffAugment_order_preserves (fns : String → List (Tensor → Tensor))
    (x : Tensor) (types : List String)
    (hp : ∀ p ∈ types, ∀ f ∈ fns p, ∀ t : Tensor,
      (f t).shape = t.shape ∧ (f t).dtype = t.dtype) :
    (∀ (p : String) (ps : List String),
      DiffAugment fns x (p :: ps) = DiffAugment fns (applyFns (fns p) x) ps)
    ∧ (DiffAugment fns x types).shape = x.shape
    ∧ (DiffAugment fns x types).dtype = x.dtype := by
  refine ⟨fun p ps => rfl, ?_, ?_⟩
  · have h := foldSpec_preserves fns types hp x
    have hc := contiguous_fields (types.foldl (fun a p => applyFns (fns p) a) x)
    exact (hc.2.1.trans h.1 : _)
  · have h := foldSpec_preserves fns types hp x
    have hc := contiguous_fields (types.foldl (fun a p => applyFns (fns p) a) x)
    exact (hc.2.2.1.trans h.2 : _)

/-- C7 witness: the ordering/preservation theorem evaluated at a concrete
tensor with a one-transform table that doubles every value. -/
theorem DiffAugment_order_preserves_witness :
    (DiffAugment
      (fun _ => [fun t => { t with data := t.data.map (fun q => 2 * q) }])
      ⟨[3], DType.float32, [1, 2, 3], true⟩ ["color"]).shape = [3] := by
  have h := DiffAugment_order_preserves
    (fun _ => [fun t => { t with data := t.data.map (fun q => 2 * q) }])
    ⟨[3], DType.float32, [1, 2, 3], true⟩ ["color"]
    (by
      intro p hp f hf t
      simp only [List.mem_singleton] at hf
      subst hf
      exact ⟨rfl, rfl⟩)
  exact h.2.1

/-- After any call of `det_randn`, the entry for the requested shape sits at
the front of the cache, holding the tensor that call returned. -/
theorem det_randn_front (randn : Nat → List Nat → Tensor) (args : List Nat)
    (st : DetRandnState) :
    ∃ rest, (det_randn randn args st).2.entries
      = (args, (det_randn randn args st).1) :: rest := by
  unfold det_randn
  cases hfind : st.entries.find? (fun e => e.1 == args) with
  | none => exact ⟨st.entries.take 9, by simp⟩
  | some e =>
    have he : e.1 = args := by
      have := List.find?_some hfind
      simpa using this
    exact ⟨st.entries.eraseP (fun x => x.1 == args), by simp [he]⟩

/-- C5: two calls to `det_randn` with the same shape arguments and no
intervening state change return the identical tensor — the second call is a
cache hit on the object memoized by the first — and the second call leaves
the cache state (entries and RNG counter) unchanged. -/
theorem det_randn_cached (randn : Nat → List Nat → Tensor) (args : List Nat)
    (st : DetRandnState) :
    (det_randn randn args (det_randn randn args st).2).1
      = (det_randn randn args st).1
    ∧ (det_randn randn args (det_randn randn args st).2).2
      = (det_randn randn args st).2 := by
  obtain ⟨rest, hfront⟩ := det_randn_front randn args st
  set v1 := (det_randn randn args st).1 with hv1
  set st1 := (det_randn randn args st).2 with hst1
  have hfind : st1.entries.find? (fun e => e.1 == args) = some (args, v1) := by
    rw [hfront]
    simp [List.find?_cons]
  have herase : st1.entries.eraseP (fun x => x.1 == args) = rest := by
    rw [hfront]
    simp [List.eraseP_cons]
  constructor
  · unfold det_randn
    rw [hfind]
  · unfold det_randn
    rw [hfind]
    simp only
    rw [herase, ← hfront]

/-- `convert_image_to` always lands in the requested mode, keeping the size. -/
theorem convert_image_to_spec (m : PILMode) (img : PILImage) :
    (convert_image_to m img).mode = m
    ∧ (convert_image_to m img).width = img.width
    ∧ (convert_image_to m img).height = img.height := by
  unfold convert_image_to
  by_cases h : img.mode = m <;> simp [h]

/-- The resize transforms never change the mode. -/
theorem resize_mode (s : Nat) (img : PILImage) :
    (resizeShorterEdge s img).mode = img.mode
    ∧ (resize_to_minimum_size s img).mode = img.mode := by
  have hshort : ∀ i : PILImage, (resizeShorterEdge s i).mode = i.mode := by
    intro i
    unfold resizeShorterEdge
    by_cases h : i.height ≤ i.width <;> simp [h]
  refine ⟨hshort img, ?_⟩
  unfold resize_to_minimum_size
  by_cases h : max img.width img.height < s
  · rw [if_pos h]
    exact hshort img
  · rw [if_neg h]

/-- Both crop choices emit an exactly `size × size` image of the same mode. -/
theorem applyCrop_spec (k : CropKind) (s : Nat) (img : PILImage) :
    (applyCrop k s img).mode = img.mode
    ∧ (applyCrop k s img).width = s
    ∧ (applyCrop k s img).height = s := by
  cases k <;> exact ⟨rfl, rfl, rfl⟩

/-- `expand_greyscale` with `transparent` leaves a 4-channel tensor alone and
without `transparent` leaves a 3-channel tensor alone. -/
theorem expand_greyscale_target (t : ImgTensor) :
    (t.channels = 4 → expand_greyscale t true = Except.ok t)
    ∧ (t.channels = 3 → expand_greyscale t false = Except.ok t) := by
  constructor <;> intro h <;> simp [expand_greyscale, h]

/-- C6: every tensor delivered by `ImageDataset.__getitem__` has the
configured channel count — 4 when `transparent`, 1 when `greyscale`,
otherwise 3 — and spatial size `image_size × image_size`, for every decoded
source image regardless of its original mode (1-, 2-, 3- or 4-channel). -/
theorem getitem_pipeline_tensor (d : ImageDataset) (img : PILImage) :
    (to_tensor (applyCrop d.cropChoice d.image_size
      (resizeShorterEdge d.image_size
        (resize_to_minimum_size d.image_size
          (convert_image_to d.pillow_mode img))))).channels
        = d.pillow_mode.channels
    ∧ (to_tensor (applyCrop d.cropChoice d.image_size
        (resizeShorterEdge d.image_size
          (resize_to_minimum_size d.image_size
            (convert_image_to d.pillow_mode img))))).height = d.image_size
    ∧ (to_tensor (applyCrop d.cropChoice d.image_size
        (resizeShorterEdge d.image_size
          (resize_to_minimum_size d.image_size
            (convert_image_to d.pillow_mode img))))).width = d.image_size := by
  have h1 := convert_image_to_spec d.pillow_mode img
  have h2 := resize_mode d.image_size (convert_image_to d.pillow_mode img)
  have h3 := resize_mode d.image_size
    (resize_to_minimum_size d.image_size (convert_image_to d.pillow_mode img))
  have h4 := applyCrop_spec d.cropChoice d.image_size
    (resizeShorterEdge d.image_size
      (resize_to_minimum_size d.image_size (convert_image_to d.pillow_mode img)))
  refine ⟨?_, h4.2.2, h4.2.1⟩
  show (applyCrop d.cropChoice d.image_size
    (resizeShorterEdge d.image_size
      (resize_to_minimum_size d.image_size
        (convert_image_to d.pillow_mode img)))).mode.channels
      = d.pillow_mode.channels
  rw [h4.1, h3.1, h2.2, h1.1]

/-- The fields of a successfully constructed `ImageDataset` in terms of the
`__init__` arguments. -/
theorem init_ok_fields (folder : List FileEntry) (image_size : Nat)
    (transparent greyscale : Bool) (aug_prob u : ℚ) (d : ImageDataset)
    (hinit : ImageDataset.init folder image_size transparent greyscale aug_prob u
      = Except.ok d) :
    d.paths = globPaths folder
    ∧ d.image_size = image_size
    ∧ d.pillow_mode = (if transparent then PILMode.RGBA
        else if greyscale then PILMode.L else PILMode.RGB)
    ∧ d.expand_fn = (if transparent then ExpandFn.expandGrey true
        else if greyscale then ExpandFn.identity else ExpandFn.expandGrey false)
    ∧ d.num_channels = (if transparent then 4 else if greyscale then 1 else 3)
    ∧ d.cropChoice
        = random_apply aug_prob u CropKind.center CropKind.randomResized := by
  unfold ImageDataset.init at hinit
  by_cases hpaths : (globPaths folder).length > 0
  · rw [if_pos hpaths] at hinit
    injection hinit with hd
    subst hd
    exact ⟨rfl, rfl, rfl, rfl, rfl, rfl⟩
  · rw [if_neg hpaths] at hinit
    exact absurd hinit (by simp)

theorem getitem_channels_size (folder : List FileEntry) (image_size : Nat)
    (transparent greyscale : Bool) (aug_prob u : ℚ) (d : ImageDataset)
    (hinit : ImageDataset.init folder image_size transparent greyscale aug_prob u
      = Except.ok d)
    (img : PILImage) :
    ∃ t, d.getitem img = Except.ok t
      ∧ t.channels = (if transparent then 4 else if greyscale then 1 else 3)
      ∧ t.height = image_size ∧ t.width = image_size := by
  have hfields := init_ok_fields folder image_size transparent greyscale
    aug_prob u d hinit
  have hpipe := getitem_pipeline_tensor d img
  rw [show d.getitem img
      = d.expand_fn.apply (to_tensor (applyCrop d.cropChoice d.image_size
          (resizeShorterEdge d.image_size
            (resize_to_minimum_size d.image_size
              (convert_image_to d.pillow_mode img))))) from rfl]
  set t0 := to_tensor (applyCrop d.cropChoice d.image_size
    (resizeShorterEdge d.image_size
      (resize_to_minimum_size d.image_size
        (convert_image_to d.pillow_mode img)))) with ht0
  obtain ⟨_, hsz, hpm, hef, _, _⟩ := hfields
  cases htr : transparent with
  | true =>
    rw [htr] at hpm hef
    simp only [if_true] at hpm hef
    have hch : t0.channels = 4 := by rw [hpipe.1, hpm]; rfl
    refine ⟨t0, ?_, ?_, by rw [hpipe.2.1, hsz], by rw [hpipe.2.2, hsz]⟩
    · rw [hef]
      exact (expand_greyscale_target t0).1 hch
    · simp [hch]
  | false =>
    cases hgr : greyscale with
    | true =>
      rw [htr, hgr] at hpm hef
      simp only [if_false, if_true, Bool.false_eq_true] at hpm hef
      have hch : t0.channels = 1 := by rw [hpipe.1, hpm]; rfl
      refine ⟨t0, ?_, ?_, by rw [hpipe.2.1, hsz], by rw [hpipe.2.2, hsz]⟩
      · rw [hef]; rfl
      · simp [hch]
    | false =>
      rw [htr, hgr] at hpm hef
      simp only [if_false, Bool.false_eq_true] at hpm hef
      have hch : t0.channels = 3 := by rw [hpipe.1, hpm]; rfl
      refine ⟨t0, ?_, ?_, by rw [hpipe.2.1, hsz], by rw [hpipe.2.2, hsz]⟩
      · rw [hef]
        exact (expand_greyscale_target t0).2 hch
      · simp [hch]

/-- C6 witness: the shape theorem evaluated at a concrete one-file dataset in
default RGB mode on a 2-channel (LA-mode) 5×3 source image. -/
theorem getitem_channels_size_witness :
    ∃ t, ImageDataset.getitem
        ⟨[⟨"a", "jpg"⟩], 8, false, false, 3, PILMode.RGB,
          ExpandFn.expandGrey false, CropKind.randomResized⟩
        ⟨PILMode.LA, 5, 3⟩ = Except.ok t
      ∧ t.channels = (if false then 4 else if false then 1 else 3)
      ∧ t.height = 8 ∧ t.width = 8 :=
  getitem_channels_size [⟨"a", "jpg"⟩] 8 false false 0 0 _ rfl ⟨PILMode.LA, 5, 3⟩

/-- C9: the crop augmentation choice is drawn exactly once, by the single
`random_apply(aug_prob, CenterCrop, RandomResizedCrop)` call inside
`__init__`, and frozen in the constructed dataset: it is `CenterCrop` iff
the uniform draw `u` is below `aug_prob`; with the default `aug_prob = 0`
(and `u ∈ [0,1)`) it is always `RandomResizedCrop`; and every item of the
instance is transformed through that same stored crop choice. -/
theorem crop_choice_once (folder : List FileEntry) (image_size : Nat)
    (transparent greyscale : Bool) (aug_prob u : ℚ) (d : ImageDataset)
    (hinit : ImageDataset.init folder image_size transparent greyscale aug_prob u
      = Except.ok d)
    (hu : 0 ≤ u) :
    d.cropChoice = random_apply aug_prob u CropKind.center CropKind.randomResized
    ∧ (d.cropChoice = CropKind.center ↔ u < aug_prob)
    ∧ (aug_prob = 0 → d.cropChoice = CropKind.randomResized)
    ∧ ∀ img : PILImage, d.getitem img
        = d.expand_fn.apply (to_tensor (applyCrop d.cropChoice d.image_size
            (resizeShorterEdge d.image_size
              (resize_to_minimum_size d.image_size
                (convert_image_to d.pillow_mode img))))) := by
  have hchoice := (init_ok_fields folder image_size transparent greyscale
    aug_prob u d hinit).2.2.2.2.2
  refine ⟨hchoice, ?_, ?_, fun img => rfl⟩
  · rw [hchoice]
    unfold random_apply
    by_cases hlt : u < aug_prob
    · simp [hlt]
    · simp [hlt]
  · intro hzero
    rw [hchoice, hzero]
    unfold random_apply
    rw [if_neg (not_lt.mpr hu)]

/-- C9 witness: a concrete one-file dataset with the default `aug_prob = 0`
and draw `u = 1/2` stores the stochastic `RandomResizedCrop`. -/
theorem crop_choice_once_witness :
    random_apply (0 : ℚ) (1 / 2) CropKind.center CropKind.randomResized
      = CropKind.randomResized := by
  have h := crop_choice_once [⟨"a", "jpg"⟩] 8 false false 0 (1 / 2) _ rfl
    (by norm_num)
  exact h.1.symm.trans (h.2.2.1 rfl)

/-- The per-extension counts of the three globs sum to the count of files
whose extension is one of `EXTS`. -/
theorem filter3_split (l : List FileEntry) :
    (l.filter (fun q => q.ext == "jpg")).length
      + ((l.filter (fun q => q.ext == "jpeg")).length
      + (l.filter (fun q => q.ext == "png")).length)
    = (l.filter (fun p => decide (p.ext ∈ EXTS))).length := by
  induction l with
  | nil => rfl
  | cons p ps ih =>
    simp only [List.filter_cons]
    by_cases h1 : p.ext = "jpg"
    · have c1 : (p.ext == "jpg") = true := by simp [h1]
      have c2 : ¬((p.ext == "jpeg") = true) := by simp [h1]
      have c3 : ¬((p.ext == "png") = true) := by simp [h1]
      have c4 : decide (p.ext ∈ EXTS) = true := by simp [h1, EXTS]
      rw [if_pos c1, if_neg c2, if_neg c3, if_pos c4]
      simp only [List.length_cons]
      omega
    · by_cases h2 : p.ext = "jpeg"
      · have c1 : ¬((p.ext == "jpg") = true) := by simp [h2]
        have c2 : (p.ext == "jpeg") = true := by simp [h2]
        have c3 : ¬((p.ext == "png") = true) := by simp [h2]
        have c4 : decide (p.ext ∈ EXTS) = true := by simp [h2, EXTS]
        rw [if_neg c1, if_pos c2, if_neg c3, if_pos c4]
        simp only [List.length_cons]
        omega
      · by_cases h3 : p.ext = "png"
        · have c1 : ¬((p.ext == "jpg") = true) := by simp [h3]
          have c2 : ¬((p.ext == "jpeg") = true) := by simp [h3]
          have c3 : (p.ext == "png") = true := by simp [h3]
          have c4 : decide (p.ext ∈ EXTS) = true := by simp [h3, EXTS]
          rw [if_neg c1, if_neg c2, if_pos c3, if_pos c4]
          simp only [List.length_cons]
          omega
        · have c1 : ¬((p.ext == "jpg") = true) := by simp [h1]
          have c2 : ¬((p.ext == "jpeg") = true) := by simp [h2]
          have c3 : ¬((p.ext == "png") = true) := by simp [h3]
          have c4 : ¬(decide (p.ext ∈ EXTS) = true) := by simp [EXTS, h1, h2, h3]
          rw [if_neg c1, if_neg c2, if_neg c3, if_neg c4]
          omega

/-- The glob keeps exactly the files whose extension is one of `EXTS`:
its length equals the count of matching files. -/
theorem globPaths_length (folder : List FileEntry) :
    (globPaths folder).length
      = (folder.filter (fun p => decide (p.ext ∈ EXTS))).length := by
  have hsplit : (globPaths folder).length
      = (folder.filter (fun q => q.ext == "jpg")).length
        + ((folder.filter (fun q => q.ext == "jpeg")).length
        + (folder.filter (fun q => q.ext == "png")).length) := by
    simp [globPaths, EXTS]
  rw [hsplit, filter3_split]

/-- C10: `ImageDataset` construction fails with the assertion message exactly
when no file in the (recursively listed) folder has extension `jpg`, `jpeg`
or `png`; on success, `len(dataset)` equals the number of such files. -/
theorem init_assert_and_len (folder : List FileEntry) (image_size : Nat)
    (transparent greyscale : Bool) (aug_prob u : ℚ) :
    (ImageDataset.init folder image_size transparent greyscale aug_prob u
        = Except.error "No images were found for training"
      ↔ ∀ p ∈ folder, p.ext ∉ EXTS)
    ∧ ∀ d, ImageDataset.init folder image_size transparent greyscale aug_prob u
          = Except.ok d →
        d.len = (folder.filter (fun p => decide (p.ext ∈ EXTS))).length := by
  have hlen := globPaths_length folder
  have hiff : (globPaths folder).length = 0 ↔ ∀ p ∈ folder, p.ext ∉ EXTS := by
    rw [hlen, List.length_eq_zero, List.filter_eq_nil_iff]
    simp
  constructor
  · unfold ImageDataset.init
    by_cases hpaths : (globPaths folder).length > 0
    · rw [if_pos hpaths]
      constructor
      · intro h
        exact absurd h (by simp)
      · intro h
        exact absurd (hiff.mpr h) (by omega)
    · rw [if_neg hpaths]
      constructor
      · intro _
        exact hiff.mp (by omega)
      · intro _
        rfl
  · intro d hinit
    have hpaths := (init_ok_fields folder image_size transparent greyscale
      aug_prob u d hinit).1
    unfold ImageDataset.len
    rw [hpaths, hlen]

/-- C10 witness: a folder with one `jpg`, one `png` and one `txt` file
constructs successfully with length 2, and a folder holding only a `txt`
file fails with the assertion message. -/
theorem init_assert_and_len_witness :
    (⟨[⟨"a", "jpg"⟩, ⟨"b", "png"⟩], 8, false, false, 3, PILMode.RGB,
      ExpandFn.expandGrey false, CropKind.randomResized⟩ : ImageDataset).len
      = (([⟨"a", "jpg"⟩, ⟨"c", "txt"⟩, ⟨"b", "png"⟩] : List FileEntry).filter
          (fun p => decide (p.ext ∈ EXTS))).length
    ∧ ImageDataset.init [⟨"c", "txt"⟩] 8 false false 0 0
        = Except.error "No images were found for training" := by
  constructor
  · exact (init_assert_and_len [⟨"a", "jpg"⟩, ⟨"c", "txt"⟩, ⟨"b", "png"⟩]
      8 false false 0 0).2 _ rfl
  · exact (init_assert_and_len [⟨"c", "txt"⟩] 8 false false 0 0).1.mpr
      (by decide)

/-- C1: the training loop invokes `model.train` through
`retry_call(model.train, tries=3, exceptions=NanException)`: when the three
consecutive tries for the same logical step all hit a NaN, exactly 3 calls
are made and the `NanException` of the third propagates out of
`run_training` as a fatal abort, with no further automatic retry; and
whenever any of the three allowed tries succeeds, the step completes and no
exception escapes the `retry_call`. -/
theorem run_training_retries_three (rank world_size : Nat) (nanAt : Nat → Bool)
    (num_train_steps steps0 : Nat) (hlt : steps0 < num_train_steps)
    (h0 : nanAt 0 = true) (h1 : nanAt 1 = true) (h2 : nanAt 2 = true) :
    run_training rank world_size nanAt num_train_steps steps0
        = Except.error NanException.mk
    ∧ (retry_call (trainCall nanAt steps0) 3 0).2 = 3
    ∧ ∀ (g : Nat → Bool) (steps idx : Nat),
        (g idx = false ∨ g (idx + 1) = false ∨ g (idx + 2) = false) →
        ∃ steps', (retry_call (trainCall g steps) 3 idx).1 = Except.ok steps' := by
  have hretry : retry_call (trainCall nanAt steps0) 3 0
      = (Except.error NanException.mk, 3) := by
    simp [retry_call, trainCall, h0, h1, h2]
  refine ⟨?_, by rw [hretry], ?_⟩
  · unfold run_training
    dsimp only
    cases num_train_steps with
    | zero => omega
    | succ n =>
      have hstep : runLoop nanAt (rank == 0) (n + 1) (n + 1) steps0 0
          = Except.error NanException.mk := by
        simp only [runLoop]
        rw [if_pos hlt, hretry]
      rw [hstep]
  · intro g steps idx hsome
    rcases hsome with hg | hg | hg
    · exact ⟨steps + 1, by simp [retry_call, trainCall, hg]⟩
    · cases hx : g idx with
      | false => exact ⟨steps + 1, by simp [retry_call, trainCall, hx]⟩
      | true => exact ⟨steps + 1, by simp [retry_call, trainCall, hx, hg]⟩
    · cases hx : g idx with
      | false => exact ⟨steps + 1, by simp [retry_call, trainCall, hx]⟩
      | true =>
        cases hy : g (idx + 1) with
        | false => exact ⟨steps + 1, by simp [retry_call, trainCall, hx, hy]⟩
        | true => exact ⟨steps + 1, by simp [retry_call, trainCall, hx, hy, hg]⟩

/-- C1 witness: with every call hitting a NaN, a one-step run aborts with
`NanException` after exactly 3 tries. -/
theorem run_training_retries_three_witness :
    run_training 0 1 (fun _ => true) 1 0 = Except.error NanException.mk
    ∧ (retry_call (trainCall (fun _ => true) 0) 3 0).2 = 3 := by
  have h := run_training_retries_three 0 1 (fun _ => true) 1 0
    (by decide) rfl rfl rfl
  exact ⟨h.1, h.2.1⟩

/-- C4 counterexample: with two workers, no NaN failures and one training
step, the non-coordinating worker (`rank = 1 ≠ 0`) still executes the final
`model.save(model.checkpoint_num)` after its loop exits — its effect trace
is `[Effect.save]`, a checkpoint write — contradicting the claim that all
such side effects, including the final `model.save`, happen only on
rank 0. -/
theorem run_training_rank1_saves :
    run_training 1 2 (fun _ => false) 1 0 = Except.ok ([Effect.save], 1) := by
  rfl

/-- A successful loop on a non-coordinating worker (`is_main = false`)
produces no effects: `model.print_log` is guarded by `is_main`. -/
theorem runLoop_nonmain_no_effects (nanAt : Nat → Bool) (nts : Nat) :
    ∀ (fuel steps idx : Nat) (effs : List Effect) (s i : Nat),
      runLoop nanAt false nts fuel steps idx = Except.ok (effs, s, i) →
      effs = [] := by
  intro fuel
  induction fuel with
  | zero =>
    intro steps idx effs s i h
    simp only [runLoop] at h
    exact ((Prod.mk.injEq _ _ _ _).mp ((Except.ok.inj h))).1.symm
  | succ fuel ih =>
    intro steps idx effs s i h
    simp only [runLoop] at h
    by_cases hc : steps < nts
    · rw [if_pos hc] at h
      cases hr : retry_call (trainCall nanAt steps) 3 idx with
      | mk r idx' =>
        rw [hr] at h
        cases r with
        | error e => exact absurd h (by simp)
        | ok steps' =>
          dsimp only at h
          cases hrec : runLoop nanAt false nts fuel steps' idx' with
          | error e =>
            rw [hrec] at h
            exact absurd h (by simp)
          | ok out =>
            obtain ⟨effs', s', i'⟩ := out
            rw [hrec] at h
            have hnil := ih steps' idx' effs' s' i' hrec
            subst hnil
            have h' := (Prod.mk.injEq _ _ _ _).mp (Except.ok.inj h)
            rw [← h'.1]
            simp
    · rw [if_neg hc] at h
      exact ((Prod.mk.injEq _ _ _ _).mp ((Except.ok.inj h))).1.symm

/-- C4 (amended): in distributed mode a non-coordinating worker
(`rank ≠ 0`) performs no log write during the training loop — `print_log`
is guarded by `is_main`, and the intra-step checkpoint/evaluation writes
inside `Trainer.train` are rank-0-only — but the final
`model.save(model.checkpoint_num)` after the loop exits is executed by
every worker, not only rank 0: a successful run's entire effect trace on a
non-coordinating worker is exactly the final save. -/
theorem run_training_nonmain_only_final_save (rank world_size : Nat)
    (nanAt : Nat → Bool) (num_train_steps steps0 : Nat) (hr : rank ≠ 0)
    (effs : List Effect) (steps : Nat)
    (h : run_training rank world_size nanAt num_train_steps steps0
      = Except.ok (effs, steps)) :
    effs = [Effect.save] ∧ Effect.printLog ∉ effs := by
  have hmain : (rank == 0) = false := by
    simpa using hr
  unfold run_training at h
  rw [hmain] at h
  dsimp only at h
  cases hloop : runLoop nanAt false num_train_steps num_train_steps steps0 0 with
  | error e =>
    rw [hloop] at h
    exact absurd h (by simp)
  | ok out =>
    obtain ⟨effs', s', i'⟩ := out
    rw [hloop] at h
    have hnil := runLoop_nonmain_no_effects nanAt num_train_steps
      num_train_steps steps0 0 effs' s' i' hloop
    subst hnil
    have h' := (Prod.mk.injEq _ _ _ _).mp (Except.ok.inj h)
    rw [← h'.1]
    simp

/-- C4 amended-claim witness: the rank-1 worker of the counterexample run
has effect trace exactly `[Effect.save]`, with no `print_log`. -/
theorem run_training_nonmain_only_final_save_witness :
    ([Effect.save] : List Effect) = [Effect.save]
    ∧ Effect.printLog ∉ ([Effect.save] : List Effect) :=
  run_training_nonmain_only_final_save 1 2 (fun _ => false) 1 0
    (by decide) [Effect.save] 1 rfl

end LightweightGan
